import Mathlib

/-!
Shallow embedding of `src/compute_chi2.py` (class `HipparcosLogProb`):
the astrometric reconstructor built in `__init__` and the batched
likelihood evaluator `compute_lnprob`.

Numbers are modelled as exact rationals.  The external numerical
routines (`np.sin`, `np.cos`, `np.radians`, and the orbit solver
`orbitize.kepler.calc_orbit`) are black boxes: they are passed in as
function parameters, exactly as the Python code treats them as opaque
library calls.  Log-probabilities live in an extended type `Ext`
with two infinities, mirroring the IEEE infinities the code uses
(`lnprob[bad_plx] = -np.inf`, and `lnprob *= -1`).
-/

namespace HipIAD

/-- Extended values: finite rationals plus the two infinities used by
the code (`-np.inf` for the parallax prior, and its negation). -/
inductive Ext where
  | negInf : Ext
  | posInf : Ext
  | fin : ℚ → Ext
deriving DecidableEq, Repr

/-- Negation on extended values, mirroring `lnprob *= -1` on a float
array: finite values negate, `-inf` becomes `+inf` and conversely. -/
def Ext.neg : Ext → Ext
  | .negInf => .posInf
  | .posInf => .negInf
  | .fin q => .fin (-q)

/-- Black-box trigonometry: stands for `np.sin`, `np.cos`, `np.radians`.
The code only ever composes them as `np.sin(np.radians(x))` etc. -/
structure Trig where
  sin : ℚ → ℚ
  cos : ℚ → ℚ
  radians : ℚ → ℚ

/-- Black-box orbit solver, standing for `orbitize.kepler.calc_orbit`:
arguments `(epoch_mjd, sma, ecc, inc, aop, pan, tau, plx, mtot)`,
returning `(raoff, decoff, rv)`; the code discards the third value. -/
def CalcOrbit : Type :=
  ℚ → ℚ → ℚ → ℚ → ℚ → ℚ → ℚ → ℚ → ℚ → ℚ × ℚ × ℚ

/-- The per-target state assembled by `HipparcosLogProb.__init__`
before the reconstruction step: the van Leeuwen catalog solution
(scalars), the IAD scan table (per-epoch sequences of length
`nEpochs`), and the Earth barycentric ephemeris. -/
structure Hip where
  nEpochs : ℕ
  epochs : ℕ → ℚ
  epochs_mjd : ℕ → ℚ
  cos_phi : ℕ → ℚ
  sin_phi : ℕ → ℚ
  R : ℕ → ℚ
  eps : ℕ → ℚ
  X : ℕ → ℚ
  Y : ℕ → ℚ
  Z : ℕ → ℚ
  plx0 : ℚ
  pm_ra0 : ℚ
  pm_dec0 : ℚ
  alpha0 : ℚ
  delta0 : ℚ

/-- The series `changein_alpha_st` from `__init__` (Nielsen+ 2020 Eq 1). -/
def changein_alpha_st (t : Trig) (h : Hip) (i : ℕ) : ℚ :=
  h.plx0 * (h.X i * t.sin (t.radians h.alpha0) -
      h.Y i * t.cos (t.radians h.alpha0)) +
    (h.epochs i - 1991.25) * h.pm_ra0

/-- The series `changein_delta` from `__init__` (Nielsen+ 2020 Eq 2). -/
def changein_delta (t : Trig) (h : Hip) (i : ℕ) : ℚ :=
  h.plx0 * (h.X i * t.cos (t.radians h.alpha0) * t.sin (t.radians h.delta0) +
      h.Y i * t.sin (t.radians h.alpha0) * t.sin (t.radians h.delta0) -
      h.Z i * t.cos (t.radians h.delta0)) +
    (h.epochs i - 1991.25) * h.pm_dec0

/-- The series `self.alpha_abs_st = self.R * self.cos_phi + changein_alpha_st`
(Nielsen+ 2020 Eq 3), computed once in `__init__`. -/
def alpha_abs_st (t : Trig) (h : Hip) (i : ℕ) : ℚ :=
  h.R i * h.cos_phi i + changein_alpha_st t h i

/-- The series `self.delta_abs = self.R * self.sin_phi + changein_delta`,
computed once in `__init__`. -/
def delta_abs (t : Trig) (h : Hip) (i : ℕ) : ℚ :=
  h.R i * h.sin_phi i + changein_delta t h i

/-- A candidate batch: the `(N x M)` `samples` array of
`compute_lnprob`.  `nParams` is `len(samples)` (the number of rows),
`nSamples` is `len(samples[0])` (the number of candidate columns),
and `row r j` is `samples[r][j]`. -/
structure Samples where
  nParams : ℕ
  nSamples : ℕ
  row : ℕ → ℕ → ℚ

/-- The unperturbed expected offset `alpha_C_st` of `compute_lnprob`
(Nielsen+ 2020 Eq 8), for candidate `j` at epoch `i`:
`alpha_H0 = samples[2]`, `plx = samples[4]`, `pm_ra = samples[0]`. -/
def alpha_C_st (t : Trig) (h : Hip) (s : Samples) (i j : ℕ) : ℚ :=
  s.row 2 j + s.row 4 j * (h.X i * t.sin (t.radians h.alpha0) -
      h.Y i * t.cos (t.radians h.alpha0)) +
    (h.epochs i - 1991.25) * s.row 0 j

/-- The unperturbed expected offset `delta_C` of `compute_lnprob`:
`delta_H0 = samples[3]`, `plx = samples[4]`, `pm_dec = samples[1]`. -/
def delta_C (t : Trig) (h : Hip) (s : Samples) (i j : ℕ) : ℚ :=
  s.row 3 j + s.row 4 j * (h.X i * t.cos (t.radians h.alpha0) * t.sin (t.radians h.delta0) +
      h.Y i * t.sin (t.radians h.alpha0) * t.sin (t.radians h.delta0) -
      h.Z i * t.cos (t.radians h.delta0)) +
    (h.epochs i - 1991.25) * s.row 1 j

/-- The orbit perturbation added when `n_planets == 1`: the raw
offsets returned by `calc_orbit` at epoch `i`, each rescaled by
`-m1 / mtot` with `mtot = samples[11]`, `m1 = samples[12]`.  Returns
the pair `(raoff, decoff)` after rescaling. -/
def perturbation (h : Hip) (co : CalcOrbit) (s : Samples) (i j : ℕ) : ℚ × ℚ :=
  let r := co (h.epochs_mjd i) (s.row 5 j) (s.row 6 j) (s.row 7 j)
    (s.row 8 j) (s.row 9 j) (s.row 10 j) (s.row 4 j) (s.row 11 j)
  (r.1 * (-s.row 12 j / s.row 11 j), r.2.1 * (-s.row 12 j / s.row 11 j))

/-- The per-epoch, per-candidate scan-direction distance
`dist[i, j]` of `compute_lnprob` (Nielsen+ 2020 Eq 6), including the
orbit perturbation when `nPlanets = 1`. -/
def dist (t : Trig) (h : Hip) (co : CalcOrbit) (s : Samples)
    (nPlanets : ℕ) (i j : ℕ) : ℚ :=
  let a := alpha_C_st t h s i j
  let d := delta_C t h s i j
  let a := if nPlanets = 1 then a + (perturbation h co s i j).1 else a
  let d := if nPlanets = 1 then d + (perturbation h co s i j).2 else d
  |(alpha_abs_st t h i - a) * h.cos_phi i + (delta_abs t h i - d) * h.sin_phi i|

/-- Sum of `f 0 + f 1 + ... + f (n-1)`, the reduction `np.sum` performs
over the epoch axis. -/
def sumRange (n : ℕ) (f : ℕ → ℚ) : ℚ :=
  match n with
  | 0 => 0
  | n + 1 => sumRange n f + f n

/-- The chi-square of candidate `j` (Nielsen+ 2020 Eq 7):
`chi2[j] = sum_i (dist[i, j] / eps[i])^2`. -/
def chi2 (t : Trig) (h : Hip) (co : CalcOrbit) (s : Samples)
    (nPlanets : ℕ) (j : ℕ) : ℚ :=
  sumRange h.nEpochs (fun i => (dist t h co s nPlanets i j / h.eps i) ^ 2)

/-- The output entry for candidate `j` before the `negative` flag:
`lnprob = -0.5 * chi2`, then the hard prior `lnprob[plx <= 0] = -inf`
overrides it. -/
def lnprobEntry (t : Trig) (h : Hip) (co : CalcOrbit) (s : Samples)
    (nPlanets : ℕ) (j : ℕ) : Ext :=
  if s.row 4 j ≤ 0 then Ext.negInf
  else Ext.fin (-0.5 * chi2 t h co s nPlanets j)

/-- The body of `compute_lnprob` after the parameter-count dispatch:
the length-`M` log-probability vector, negated elementwise when
`negative` is set. -/
def lnprobVec (t : Trig) (h : Hip) (co : CalcOrbit) (s : Samples)
    (nPlanets : ℕ) (negative : Bool) : List Ext :=
  let l := (List.range s.nSamples).map (lnprobEntry t h co s nPlanets)
  if negative then l.map Ext.neg else l

/-- The method `HipparcosLogProb.compute_lnprob`: dispatch on `len(samples)`.
`n_params == 5` gives `n_planets = 0`, `n_params == 13` gives
`n_planets = 1`, anything else prints a message and returns `None`. -/
def compute_lnprob (t : Trig) (h : Hip) (co : CalcOrbit) (s : Samples)
    (negative : Bool) : Option (List Ext) :=
  if s.nParams = 5 then some (lnprobVec t h co s 0 negative)
  else if s.nParams = 13 then some (lnprobVec t h co s 1 negative)
  else none

/-! Concrete fixtures used to instantiate theorems with hypotheses.
They model the in-memory fixtures the spec allows for testing:
a trivial trig table, a one-epoch IAD table with `cos_phi = 1`,
`sin_phi = 0`, `R = 0`, `eps = 1`, Earth at the origin, a zero catalog
solution, and a constant orbit solver. -/

/-- Fixture trig functions. -/
def trigW : Trig := ⟨fun _ => 0, fun _ => 1, id⟩

/-- Fixture reconstructor input: one epoch at 1991.25. -/
def hipW : Hip :=
  ⟨1, fun _ => 1991.25, fun _ => 0, fun _ => 1, fun _ => 0, fun _ => 0,
   fun _ => 1, fun _ => 0, fun _ => 0, fun _ => 0, 0, 0, 0, 0, 0⟩

/-- Fixture orbit solver returning constant offsets. -/
def orbW : CalcOrbit := fun _ _ _ _ _ _ _ _ _ => (1, 2, 3)

/-- Fixture P=5 batch, single candidate with parallax `-1`. -/
def sNeg : Samples := ⟨5, 1, fun r _ => if r = 4 then -1 else 0⟩

/-- Fixture P=5 batch, single candidate with parallax `1`. -/
def sPos : Samples := ⟨5, 1, fun r _ => if r = 4 then 1 else 0⟩

/-- Fixture P=13 batch, single candidate with parallax `1`, total mass
`2` and zero secondary mass. -/
def sOrb : Samples :=
  ⟨13, 1, fun r _ => if r = 4 then 1 else if r = 11 then 2 else 0⟩

/-- Fixture P=13 batch, single candidate with parallax `1`, total mass
`2` and secondary mass `1`. -/
def sOrb1 : Samples :=
  ⟨13, 1, fun r _ => if r = 4 then 1 else if r = 11 then 2 else
    if r = 12 then 1 else 0⟩

/-- Fixture batch with an unsupported parameter count `P = 7`. -/
def sBad : Samples := ⟨7, 1, fun _ _ => 0⟩

/-- Indexing the output vector of `lnprobVec`:
entry `j` is `lnprobEntry j`, negated when the flag is set. -/
lemma lnprobVec_getElem (t : Trig) (h : Hip) (co : CalcOrbit) (s : Samples)
    (nP : ℕ) (negb : Bool) (j : ℕ) (hj : j < s.nSamples) :
    (lnprobVec t h co s nP negb)[j]? =
      some (if negb then (lnprobEntry t h co s nP j).neg
        else lnprobEntry t h co s nP j) := by
  cases negb <;>
    simp [lnprobVec, List.getElem?_map, List.getElem?_range hj]

/-- Length of the output vector of `lnprobVec` is the candidate count. -/
lemma lnprobVec_length (t : Trig) (h : Hip) (co : CalcOrbit) (s : Samples)
    (nP : ℕ) (negb : Bool) :
    (lnprobVec t h co s nP negb).length = s.nSamples := by
  cases negb <;> simp [lnprobVec]

/-- The sum `sumRange` of a pointwise-nonnegative function is nonnegative. -/
lemma sumRange_nonneg (n : ℕ) (f : ℕ → ℚ) (h : ∀ i, 0 ≤ f i) :
    0 ≤ sumRange n f := by
  induction n with
  | zero => simp [sumRange]
  | succ n ih => simpa [sumRange] using add_nonneg ih (h n)

/-- C1: for every candidate batch (P = 5 or P = 13) and every candidate
`j` with `samples[4][j] <= 0`, `compute_lnprob` with `negative = False`
produces `-inf` at position `j`, regardless of all other parameter
values, and this entry is not the finite value `-0.5 * chi2` that the
chi-square reduction produced for that candidate: the prior overrides
it after the reduction. -/
theorem plx_prior_forces_neg_inf (t : Trig) (h : Hip) (co : CalcOrbit)
    (s : Samples) (hP : s.nParams = 5 ∨ s.nParams = 13) (j : ℕ)
    (hj : j < s.nSamples) (hplx : s.row 4 j ≤ 0) :
    ∃ l, compute_lnprob t h co s false = some l ∧
      l[j]? = some Ext.negInf ∧
      ∀ nP : ℕ, l[j]? ≠ some (Ext.fin (-0.5 * chi2 t h co s nP j)) := by
  have hentry : ∀ nP : ℕ,
      (lnprobVec t h co s nP false)[j]? = some Ext.negInf := by
    intro nP
    rw [lnprobVec_getElem t h co s nP false j hj]
    simp [lnprobEntry, hplx]
  rcases hP with h5 | h13
  · exact ⟨lnprobVec t h co s 0 false, by simp [compute_lnprob, h5],
      hentry 0, fun nP => by simp [hentry 0]⟩
  · refine ⟨lnprobVec t h co s 1 false, ?_, hentry 1,
      fun nP => by simp [hentry 1]⟩
    have : s.nParams ≠ 5 := by omega
    simp [compute_lnprob, this, h13]

/-- Witness for C1 at the fixture: a single P=5 candidate with
parallax `-1` gets the `-inf` entry. -/
theorem plx_prior_forces_neg_inf_witness :
    sNeg.nParams = 5 ∧ (0 : ℕ) < sNeg.nSamples ∧ sNeg.row 4 0 ≤ 0 ∧
      ∃ l, compute_lnprob trigW hipW orbW sNeg false = some l ∧
        l[0]? = some Ext.negInf ∧
        ∀ nP : ℕ, l[0]? ≠ some (Ext.fin (-0.5 * chi2 trigW hipW orbW sNeg nP 0)) :=
  ⟨by decide, by decide, by decide,
    plx_prior_forces_neg_inf trigW hipW orbW sNeg (Or.inl (by decide)) 0
      (by decide) (by decide)⟩

/-- C3: the reconstructor computes, at every epoch `i`,
`alpha_abs_st i = R i * cos_phi i + Delta_alpha_st i` and
`delta_abs i = R i * sin_phi i + Delta_delta i`, with the parallax and
proper-motion terms as in Nielsen+ 2020 Eqs 1-3 and the catalog
position passed through the degree-to-radian conversion.  The series
are pure functions of the construction inputs, so they are fixed at
construction and never mutated. -/
theorem reconstructor_series (t : Trig) (h : Hip) (i : ℕ) :
    alpha_abs_st t h i =
      h.R i * h.cos_phi i +
        (h.plx0 * (h.X i * t.sin (t.radians h.alpha0) -
            h.Y i * t.cos (t.radians h.alpha0)) +
          (h.epochs i - 1991.25) * h.pm_ra0) ∧
    delta_abs t h i =
      h.R i * h.sin_phi i +
        (h.plx0 * (h.X i * t.cos (t.radians h.alpha0) * t.sin (t.radians h.delta0) +
            h.Y i * t.sin (t.radians h.alpha0) * t.sin (t.radians h.delta0) -
            h.Z i * t.cos (t.radians h.delta0)) +
          (h.epochs i - 1991.25) * h.pm_dec0) :=
  ⟨rfl, rfl⟩

/-- C5: for every batch, the negated output is the elementwise
negation of the plain output, with `-inf` entries mapped to `+inf`. -/
theorem negative_flag_negates (t : Trig) (h : Hip) (co : CalcOrbit)
    (s : Samples) :
    compute_lnprob t h co s true =
      Option.map (List.map Ext.neg) (compute_lnprob t h co s false) := by
  by_cases h5 : s.nParams = 5
  · simp [compute_lnprob, h5, lnprobVec]
  · by_cases h13 : s.nParams = 13 <;>
      simp [compute_lnprob, h5, h13, lnprobVec]

/-- C6: a parameter count other than 5 or 13 makes `compute_lnprob`
return `None`: the usage error is signalled distinctly, evaluation
does not proceed, and no (partial) result vector is produced. -/
theorem invalid_param_count_returns_none (t : Trig) (h : Hip)
    (co : CalcOrbit) (s : Samples) (negb : Bool)
    (h5 : s.nParams ≠ 5) (h13 : s.nParams ≠ 13) :
    compute_lnprob t h co s negb = none := by
  simp [compute_lnprob, h5, h13]

/-- Witness for C6 at the fixture batch with `P = 7`. -/
theorem invalid_param_count_witness :
    sBad.nParams ≠ 5 ∧ sBad.nParams ≠ 13 ∧
      compute_lnprob trigW hipW orbW sBad false = none :=
  ⟨by decide, by decide,
    invalid_param_count_returns_none trigW hipW orbW sBad false
      (by decide) (by decide)⟩

/-- Spec-side formula, stated from the spec's own words (§4.2) for
comparison with the code: the scan-direction distance of candidate `j`
at epoch `i` for a P=5 batch,
`dist_i = |(alpha_abs_i - alpha_C_st_ij) * cos_phi_i +
(delta_abs_i - delta_C_ij) * sin_phi_i|` with the expected offsets
spelled out in full. -/
def specDistP5 (t : Trig) (h : Hip) (s : Samples) (i j : ℕ) : ℚ :=
  |(alpha_abs_st t h i -
      (s.row 2 j + s.row 4 j * (h.X i * t.sin (t.radians h.alpha0) -
          h.Y i * t.cos (t.radians h.alpha0)) +
        (h.epochs i - 1991.25) * s.row 0 j)) * h.cos_phi i +
    (delta_abs t h i -
      (s.row 3 j + s.row 4 j * (h.X i * t.cos (t.radians h.alpha0) * t.sin (t.radians h.delta0) +
          h.Y i * t.sin (t.radians h.alpha0) * t.sin (t.radians h.delta0) -
          h.Z i * t.cos (t.radians h.delta0)) +
        (h.epochs i - 1991.25) * s.row 1 j)) * h.sin_phi i|

/-- Spec-side formula, stated from the spec's own words (§4.2):
the log-probability of candidate `j` for a P=5 batch,
`lnprob_j = -0.5 * sum_i (dist_ij / eps_i)^2`. -/
def specLnprobP5 (t : Trig) (h : Hip) (s : Samples) (j : ℕ) : ℚ :=
  -0.5 * sumRange h.nEpochs (fun i => (specDistP5 t h s i j / h.eps i) ^ 2)

/-- Counterexample to C2 as stated: for the fixture P=5 batch whose
single candidate has parallax `-1`, `compute_lnprob` returns `-inf` at
that candidate, not the finite value `-0.5 * chi2` the claimed formula
prescribes for every candidate. -/
theorem p5_formula_counterexample :
    compute_lnprob trigW hipW orbW sNeg false = some [Ext.negInf] ∧
      Ext.negInf ≠ Ext.fin (specLnprobP5 trigW hipW sNeg 0) :=
  ⟨by decide, fun hc => Ext.noConfusion hc⟩

/-- C2 amended: for every P=5 candidate batch and every candidate `j`
with positive parallax, `compute_lnprob` with `negative = False`
returns a length-M vector whose entry `j` is
`-0.5 * sum_i (dist_ij / eps_i)^2` with
`dist_ij = |(alpha_abs_i - alpha_C_st_ij) * cos_phi_i +
(delta_abs_i - delta_C_ij) * sin_phi_i|` and the expected offsets as
in the claim; candidates with non-positive parallax instead get the
`-inf` override of C1. -/
theorem p5_formula (t : Trig) (h : Hip) (co : CalcOrbit) (s : Samples)
    (hP : s.nParams = 5) (j : ℕ) (hj : j < s.nSamples)
    (hplx : 0 < s.row 4 j) :
    ∃ l, compute_lnprob t h co s false = some l ∧
      l.length = s.nSamples ∧
      l[j]? = some (Ext.fin (specLnprobP5 t h s j)) := by
  refine ⟨lnprobVec t h co s 0 false, by simp [compute_lnprob, hP],
    lnprobVec_length t h co s 0 false, ?_⟩
  rw [lnprobVec_getElem t h co s 0 false j hj]
  simp only [Bool.false_eq_true, if_false]
  simp [lnprobEntry, not_le.mpr hplx, specLnprobP5, chi2, specDistP5,
    dist, alpha_C_st, delta_C]

/-- Witness for the amended C2 at the fixture: a single P=5 candidate
with parallax `1`. -/
theorem p5_formula_witness :
    sPos.nParams = 5 ∧ (0 : ℕ) < sPos.nSamples ∧ 0 < sPos.row 4 0 ∧
      ∃ l, compute_lnprob trigW hipW orbW sPos false = some l ∧
        l.length = sPos.nSamples ∧
        l[0]? = some (Ext.fin (specLnprobP5 trigW hipW sPos 0)) :=
  ⟨by decide, by decide, by decide,
    p5_formula trigW hipW orbW sPos (by decide) 0 (by decide) (by decide)⟩

/-- Counterexample to C7 as stated: with `negative = True` the entry
of a non-positive-parallax candidate is `+inf` (the `-inf` set by the
prior is multiplied by `-1`), not `-inf` as the claim asserts for both
modes. -/
theorem output_modes_counterexample :
    compute_lnprob trigW hipW orbW sNeg true = some [Ext.posInf] ∧
      Ext.posInf ≠ Ext.negInf :=
  ⟨by decide, fun hc => Ext.noConfusion hc⟩

/-- C7 amended: the output is a length-M vector in both modes; a
candidate with non-positive parallax gets `-inf` when
`negative = False` and `+inf` (its negation) when `negative = True`. -/
theorem output_vector_modes (t : Trig) (h : Hip) (co : CalcOrbit)
    (s : Samples) (hP : s.nParams = 5 ∨ s.nParams = 13) (j : ℕ)
    (hj : j < s.nSamples) (hplx : s.row 4 j ≤ 0) :
    ∃ l l', compute_lnprob t h co s false = some l ∧
      compute_lnprob t h co s true = some l' ∧
      l.length = s.nSamples ∧ l'.length = s.nSamples ∧
      l[j]? = some Ext.negInf ∧ l'[j]? = some Ext.posInf := by
  have hentry : ∀ nP : ℕ,
      lnprobEntry t h co s nP j = Ext.negInf := fun nP => by
    simp [lnprobEntry, hplx]
  rcases hP with h5 | h13
  · refine ⟨lnprobVec t h co s 0 false, lnprobVec t h co s 0 true,
      by simp [compute_lnprob, h5], by simp [compute_lnprob, h5],
      lnprobVec_length t h co s 0 false, lnprobVec_length t h co s 0 true,
      ?_, ?_⟩
    · rw [lnprobVec_getElem t h co s 0 false j hj]
      simp [hentry 0]
    · rw [lnprobVec_getElem t h co s 0 true j hj]
      simp [hentry 0, Ext.neg]
  · have h5 : s.nParams ≠ 5 := by omega
    refine ⟨lnprobVec t h co s 1 false, lnprobVec t h co s 1 true,
      by simp [compute_lnprob, h5, h13], by simp [compute_lnprob, h5, h13],
      lnprobVec_length t h co s 1 false, lnprobVec_length t h co s 1 true,
      ?_, ?_⟩
    · rw [lnprobVec_getElem t h co s 1 false j hj]
      simp [hentry 1]
    · rw [lnprobVec_getElem t h co s 1 true j hj]
      simp [hentry 1, Ext.neg]

/-- Witness for the amended C7 at the fixture: a single P=5 candidate
with parallax `-1`, scored in both modes. -/
theorem output_vector_modes_witness :
    sNeg.nParams = 5 ∧ (0 : ℕ) < sNeg.nSamples ∧ sNeg.row 4 0 ≤ 0 ∧
      ∃ l l', compute_lnprob trigW hipW orbW sNeg false = some l ∧
        compute_lnprob trigW hipW orbW sNeg true = some l' ∧
        l.length = sNeg.nSamples ∧ l'.length = sNeg.nSamples ∧
        l[0]? = some Ext.negInf ∧ l'[0]? = some Ext.posInf :=
  ⟨by decide, by decide, by decide,
    output_vector_modes trigW hipW orbW sNeg (Or.inl (by decide)) 0
      (by decide) (by decide)⟩

/-- C4: a P=13 batch in which every candidate has zero secondary mass
produces exactly the output of the P=5 batch formed from rows 0-4 of
the same samples: the orbit perturbation vanishes identically. -/
theorem zero_secondary_mass_matches_p5 (t : Trig) (h : Hip)
    (co : CalcOrbit) (s : Samples) (hP : s.nParams = 13)
    (hm : ∀ j < s.nSamples, s.row 12 j = 0) (negb : Bool) :
    compute_lnprob t h co s negb =
      compute_lnprob t h co
        ⟨5, s.nSamples, fun r j => if r < 5 then s.row r j else 0⟩ negb := by
  have hkey : ∀ j < s.nSamples,
      lnprobEntry t h co s 1 j =
        lnprobEntry t h co
          ⟨5, s.nSamples, fun r j => if r < 5 then s.row r j else 0⟩ 0 j := by
    intro j hj
    simp [lnprobEntry, chi2, dist, alpha_C_st, delta_C, perturbation,
      hm j hj]
  have hmap : (List.range s.nSamples).map (lnprobEntry t h co s 1) =
      (List.range s.nSamples).map
        (lnprobEntry t h co
          ⟨5, s.nSamples, fun r j => if r < 5 then s.row r j else 0⟩ 0) :=
    List.map_congr_left (fun j hj => hkey j (List.mem_range.mp hj))
  have h5 : s.nParams ≠ 5 := by omega
  cases negb <;> simp [compute_lnprob, h5, hP, lnprobVec, hmap]

/-- Witness for C4 at the fixture: a single P=13 candidate with
parallax `1`, total mass `2` and zero secondary mass. -/
theorem zero_secondary_mass_matches_p5_witness :
    sOrb.nParams = 13 ∧ (∀ j < sOrb.nSamples, sOrb.row 12 j = 0) ∧
      compute_lnprob trigW hipW orbW sOrb false =
        compute_lnprob trigW hipW orbW
          ⟨5, sOrb.nSamples, fun r j => if r < 5 then sOrb.row r j else 0⟩
          false :=
  ⟨by decide, by decide,
    zero_secondary_mass_matches_p5 trigW hipW orbW sOrb (by decide)
      (by decide) false⟩

/-- Spec-side formula, stated from the spec's own words (§4.2) for
comparison with the code: the P=13 scan-direction distance, where the
orbit solver is invoked at epoch `i` with
`(sma, ecc, inc, aop, pan, tau, plx, mtot)` read from rows 5-11 and 4,
its two raw offsets are each multiplied by the mass fraction
`-m_secondary / mtot` (rows 12 and 11), and the rescaled offsets are
added to the expected offsets before the scan-direction projection. -/
def specDistP13 (t : Trig) (h : Hip) (co : CalcOrbit) (s : Samples)
    (i j : ℕ) : ℚ :=
  |(alpha_abs_st t h i -
      (s.row 2 j + s.row 4 j * (h.X i * t.sin (t.radians h.alpha0) -
          h.Y i * t.cos (t.radians h.alpha0)) +
        (h.epochs i - 1991.25) * s.row 0 j +
        (co (h.epochs_mjd i) (s.row 5 j) (s.row 6 j) (s.row 7 j)
            (s.row 8 j) (s.row 9 j) (s.row 10 j) (s.row 4 j)
            (s.row 11 j)).1 * (-s.row 12 j / s.row 11 j))) * h.cos_phi i +
    (delta_abs t h i -
      (s.row 3 j + s.row 4 j * (h.X i * t.cos (t.radians h.alpha0) * t.sin (t.radians h.delta0) +
          h.Y i * t.sin (t.radians h.alpha0) * t.sin (t.radians h.delta0) -
          h.Z i * t.cos (t.radians h.delta0)) +
        (h.epochs i - 1991.25) * s.row 1 j +
        (co (h.epochs_mjd i) (s.row 5 j) (s.row 6 j) (s.row 7 j)
            (s.row 8 j) (s.row 9 j) (s.row 10 j) (s.row 4 j)
            (s.row 11 j)).2.1 * (-s.row 12 j / s.row 11 j))) * h.sin_phi i|

/-- Spec-side formula for the P=13 log-probability of candidate `j`. -/
def specLnprobP13 (t : Trig) (h : Hip) (co : CalcOrbit) (s : Samples)
    (j : ℕ) : ℚ :=
  -0.5 * sumRange h.nEpochs (fun i => (specDistP13 t h co s i j / h.eps i) ^ 2)

/-- C8: for a P=13 batch, `compute_lnprob` invokes the orbit solver at
each epoch with `(sma, ecc, inc, aop, pan, tau, plx, mtot)`, rescales
both returned offsets by `-m_secondary / mtot`, and adds them to the
expected offsets before the scan-direction projection; a candidate
with positive parallax therefore receives exactly the spec's P=13
log-probability formula. -/
theorem p13_orbit_perturbation (t : Trig) (h : Hip) (co : CalcOrbit)
    (s : Samples) (hP : s.nParams = 13) (j : ℕ) (hj : j < s.nSamples)
    (hplx : 0 < s.row 4 j) :
    ∃ l, compute_lnprob t h co s false = some l ∧
      l[j]? = some (Ext.fin (specLnprobP13 t h co s j)) := by
  have h5 : s.nParams ≠ 5 := by omega
  refine ⟨lnprobVec t h co s 1 false,
    by simp [compute_lnprob, h5, hP], ?_⟩
  rw [lnprobVec_getElem t h co s 1 false j hj]
  simp only [Bool.false_eq_true, if_false]
  simp [lnprobEntry, not_le.mpr hplx, specLnprobP13, chi2, specDistP13,
    dist, alpha_C_st, delta_C, perturbation, add_assoc]

/-- Witness for C8 at the fixture: a single P=13 candidate with
parallax `1`, total mass `2` and secondary mass `1`. -/
theorem p13_orbit_perturbation_witness :
    sOrb1.nParams = 13 ∧ (0 : ℕ) < sOrb1.nSamples ∧ 0 < sOrb1.row 4 0 ∧
      ∃ l, compute_lnprob trigW hipW orbW sOrb1 false = some l ∧
        l[0]? = some (Ext.fin (specLnprobP13 trigW hipW orbW sOrb1 0)) :=
  ⟨by decide, by decide, by decide,
    p13_orbit_perturbation trigW hipW orbW sOrb1 (by decide) 0
      (by decide) (by decide)⟩

/-- C9: for a P=5 batch, every candidate with positive parallax
receives a finite log-probability that is at most zero: the chi-square
is a sum of squares, hence nonnegative, and `-0.5 * chi2 <= 0`. -/
theorem lnprob_nonpositive (t : Trig) (h : Hip) (co : CalcOrbit)
    (s : Samples) (hP : s.nParams = 5) (j : ℕ) (hj : j < s.nSamples)
    (hplx : 0 < s.row 4 j) :
    ∃ l q, compute_lnprob t h co s false = some l ∧
      l[j]? = some (Ext.fin q) ∧ q ≤ 0 := by
  refine ⟨lnprobVec t h co s 0 false, -0.5 * chi2 t h co s 0 j,
    by simp [compute_lnprob, hP], ?_, ?_⟩
  · rw [lnprobVec_getElem t h co s 0 false j hj]
    simp [lnprobEntry, not_le.mpr hplx]
  · have hchi : 0 ≤ chi2 t h co s 0 j := by
      unfold chi2
      exact sumRange_nonneg _ _ (fun i => sq_nonneg _)
    linarith

/-- Witness for C9 at the fixture: a single P=5 candidate with
parallax `1`. -/
theorem lnprob_nonpositive_witness :
    sPos.nParams = 5 ∧ (0 : ℕ) < sPos.nSamples ∧ 0 < sPos.row 4 0 ∧
      ∃ l q, compute_lnprob trigW hipW orbW sPos false = some l ∧
        l[0]? = some (Ext.fin q) ∧ q ≤ 0 :=
  ⟨by decide, by decide, by decide,
    lnprob_nonpositive trigW hipW orbW sPos (by decide) 0 (by decide)
      (by decide)⟩

end HipIAD
